import Mathlib

/-!
Verification of the VideoMeet signaling relay (server/index.js) and the
client-side connection orchestration (src/components/VideoCall.tsx).

The relay's process-wide `rooms` state is a JS `Map` from roomId to a `Map`
from userId to `{socketId, userName, userId}`.  JS `Map`s are modelled as
association lists with insertion order preserved: `set` overwrites in place
when the key is present and appends otherwise, `delete` removes the entry for
the key, `get` returns the first (unique, for real Maps) binding.
-/

namespace VideoMeet

/-- JS `Map.prototype.get`: the binding for key `k`, if any. -/
def mapGet {κ α : Type} [DecidableEq κ] (m : List (κ × α)) (k : κ) : Option α :=
  match m with
  | [] => none
  | (k', v) :: rest => if k' = k then some v else mapGet rest k

/-- JS `Map.prototype.set`: overwrite in place when present, append otherwise. -/
def mapSet {κ α : Type} [DecidableEq κ] (m : List (κ × α)) (k : κ) (v : α) :
    List (κ × α) :=
  match m with
  | [] => [(k, v)]
  | (k', v') :: rest =>
    if k' = k then (k, v) :: rest else (k', v') :: mapSet rest k v

/-- JS `Map.prototype.delete`: remove the binding for `k` (the first one,
which is the only one for a real Map). -/
def mapDelete {κ α : Type} [DecidableEq κ] (m : List (κ × α)) (k : κ) :
    List (κ × α) :=
  match m with
  | [] => []
  | (k', v') :: rest =>
    if k' = k then rest else (k', v') :: mapDelete rest k

/-! ## Relay-side data model (server/index.js) -/

/-- The value stored in a room's map: `{ socketId, userName, userId }`
(server/index.js, `room.set(userId, {socketId, userName, userId})`). -/
structure SessionInfo where
  socketId : String
  userName : String
  userId : String
deriving DecidableEq, Repr

/-- A room: JS `Map` userId → SessionInfo. -/
abbrev Room := List (String × SessionInfo)

/-- The process-wide `rooms` map: roomId → Room. -/
abbrev Registry := List (String × Room)

/-- The messages a `join-room` event causes the relay to send. -/
structure JoinEffects where
  /-- The registry after the join. -/
  registry : Registry
  /-- `socket.emit('room-participants', existingParticipants)`, sent to the
  joining socket only, and only when `existingParticipants.length > 0`;
  the first component records the socket it is addressed to. -/
  roomParticipantsReply : Option (String × List SessionInfo)
  /-- `socket.to(roomId).emit('user-joined', {userId, userName})`:
  broadcast to the room except the joining socket. -/
  userJoined : String × String
deriving DecidableEq, Repr

/-- `socket.on('join-room')` (server/index.js lines 43-92), restricted to its
effect on `rooms` and the messages it emits.  `socket.leave` on previous
socket.io rooms does not touch the `rooms` map, so it has no registry
effect. -/
def joinRoom (reg : Registry) (socketId roomId userId userName : String) :
    JoinEffects :=
  let room0 : Room := (mapGet reg roomId).getD []
  let existing := (room0.map Prod.snd).filter (fun p => p.userId != userId)
  let room1 := mapSet room0 userId ⟨socketId, userName, userId⟩
  { registry := mapSet reg roomId room1
    roomParticipantsReply :=
      if existing.length > 0 then some (socketId, existing) else none
    userJoined := (userId, userName) }

/-- A `user-left` broadcast `socket.to(roomId).emit('user-left', ...)`. -/
structure UserLeftMsg where
  roomId : String
  userId : String
  userName : String
deriving DecidableEq, Repr

/-- `socket.on('disconnect')` (server/index.js lines 171-206): for each room,
find the first entry whose `socketId` matches, delete that userId, notify the
room with `user-left`, and delete the room if it became empty. -/
def disconnectSocket (reg : Registry) (sid : String) :
    Registry × List UserLeftMsg :=
  match reg with
  | [] => ([], [])
  | (rid, room) :: rest =>
    let tail := disconnectSocket rest sid
    match room.find? (fun e => e.2.socketId == sid) with
    | none => ((rid, room) :: tail.1, tail.2)
    | some (uid, info) =>
      let room' := mapDelete room uid
      let msg : UserLeftMsg := ⟨rid, uid, info.userName⟩
      if room'.isEmpty then (tail.1, msg :: tail.2)
      else ((rid, room') :: tail.1, msg :: tail.2)

/-- `getUserIdBySocket(socketId, roomId)` (server/index.js lines 208-223):
`null` when the room is absent or no entry in it has that socket. -/
def getUserIdBySocket (reg : Registry) (socketId roomId : String) :
    Option String :=
  match mapGet reg roomId with
  | none => none
  | some room => (room.find? (fun e => e.2.socketId == socketId)).map Prod.fst

/-- A routed signaling message as delivered: `io.to(targetSocket).emit(...)`
with the payload annotated by the sender's userId (or `null`). -/
structure Delivery where
  toSocket : String
  senderUserId : Option String
deriving DecidableEq, Repr

/-- The shared body of `socket.on('offer')`, `socket.on('answer')` and
`socket.on('ice-candidate')` (server/index.js lines 94-153): resolve the
sender's userId from its socket, look up the target in the room, and either
emit to the target's socket or drop (only `console.error`, nothing sent). -/
def relayRoute (reg : Registry) (senderSid targetUserId roomId : String) :
    List Delivery :=
  let senderId := getUserIdBySocket reg senderSid roomId
  match mapGet reg roomId with
  | none => []
  | some room =>
    match mapGet room targetUserId with
    | none => []
    | some info => [⟨info.socketId, senderId⟩]

/-! ## Client-side model (src/components/VideoCall.tsx)

The orchestration state kept by a `VideoCall` component: the
`peerConnections` ref (JS `Map` userId → `RTCPeerConnection`), the local
stream's tracks, the local preview element's `srcObject`, the
screen-sharing flag.  An `RTCPeerConnection` is modelled by the fields the
claims observe: an identity (`pcId`, allocation order), its local and
remote descriptions, its senders (one per added track; `replaceTrack`
swaps a sender's track in place), its connection state, and the list of
ICE candidates actually applied via `addIceCandidate`.  `close()` calls
are recorded in a ledger `closedPcIds` so that "the old connection was
never closed" is observable. -/

/-- A media track: `kind` is "video" or "audio"; `tid` distinguishes
tracks. -/
structure Track where
  kind : String
  tid : Nat
deriving DecidableEq, Repr

/-- An `RTCRtpSender`; `track` is `null`able. -/
structure Sender where
  track : Option Track
deriving DecidableEq, Repr

/-- `RTCPeerConnection.connectionState` / `iceConnectionState` values used
by the handlers. -/
inductive PCState where
  | fresh
  | checking
  | connecting
  | connected
  | completed
  | disconnected
  | failed
  | closed
deriving DecidableEq, Repr

/-- The observable fields of one `RTCPeerConnection`. -/
structure PeerConn where
  pcId : Nat
  localDescription : Option String
  remoteDescription : Option String
  senders : List Sender
  connState : PCState
  appliedCandidates : List String
deriving DecidableEq, Repr

/-- A `socket.emit` performed by the client (offer / answer /
ice-candidate). -/
structure OutMsg where
  kind : String
  targetUserId : String
  payload : String
deriving DecidableEq, Repr

/-- The orchestration state of one client. -/
structure ClientState where
  peerConnections : List (String × PeerConn)
  localTracks : List Track
  localPreview : List Track
  isScreenSharing : Bool
  closedPcIds : List Nat
  nextPcId : Nat
deriving DecidableEq, Repr

/-- `createPeerConnection(targetUserId, stream)` (VideoCall.tsx lines
390-501): builds a new `RTCPeerConnection`, adds one sender per local
track, and stores it with `peerConnections.current.set(targetUserId, pc)` —
unconditionally overwriting any existing entry, without closing it. -/
def createPeerConnection (st : ClientState) (targetUserId : String) :
    ClientState × PeerConn :=
  let pc : PeerConn :=
    { pcId := st.nextPcId
      localDescription := none
      remoteDescription := none
      senders := st.localTracks.map (fun t => ⟨some t⟩)
      connState := .fresh
      appliedCandidates := [] }
  ({ st with
      peerConnections := mapSet st.peerConnections targetUserId pc
      nextPcId := st.nextPcId + 1 }, pc)

/-- `createOfferForUser` (VideoCall.tsx lines 503-525): create the peer
connection, set the local description to the generated offer, emit the
offer.  `sdp` stands for the SDP the browser generated. -/
def createOfferForUser (st : ClientState) (targetUserId sdp : String) :
    ClientState × List OutMsg :=
  let (st1, pc) := createPeerConnection st targetUserId
  let pc1 := { pc with localDescription := some sdp }
  ({ st1 with peerConnections := mapSet st1.peerConnections targetUserId pc1 },
   [⟨"offer", targetUserId, sdp⟩])

/-- `handleIncomingOffer` (VideoCall.tsx lines 527-548): unconditionally
`createPeerConnection(callerUserId, stream)` (even if one already exists),
set the remote description from the offer, create and set the answer,
emit it. -/
def handleIncomingOffer (st : ClientState) (callerUserId offerSdp answerSdp : String) :
    ClientState × List OutMsg :=
  let (st1, pc) := createPeerConnection st callerUserId
  let pc1 := { pc with
    remoteDescription := some offerSdp
    localDescription := some answerSdp }
  ({ st1 with peerConnections := mapSet st1.peerConnections callerUserId pc1 },
   [⟨"answer", callerUserId, answerSdp⟩])

/-- `handleIncomingAnswer` (VideoCall.tsx lines 550-562): if a peer
connection exists for the answerer, set its remote description; otherwise
nothing. -/
def handleIncomingAnswer (st : ClientState) (answererUserId answerSdp : String) :
    ClientState :=
  match mapGet st.peerConnections answererUserId with
  | none => st
  | some pc =>
    let pc1 := { pc with remoteDescription := some answerSdp }
    { st with peerConnections := mapSet st.peerConnections answererUserId pc1 }

/-- `handleIncomingIceCandidate` (VideoCall.tsx lines 564-577): the
candidate is applied only when the peer connection exists and its remote
description is already set; otherwise the handler only logs — the state is
unchanged and the candidate is discarded (there is no buffer). -/
def handleIncomingIceCandidate (st : ClientState) (senderUserId cand : String) :
    ClientState :=
  match mapGet st.peerConnections senderUserId with
  | none => st
  | some pc =>
    if pc.remoteDescription.isSome then
      let pc1 := { pc with appliedCandidates := pc.appliedCandidates ++ [cand] }
      { st with peerConnections := mapSet st.peerConnections senderUserId pc1 }
    else st

/-- The `user-left` handler (VideoCall.tsx lines 301-317): close the peer
connection for the departed user and remove it from the map. -/
def handleUserLeft (st : ClientState) (leftUserId : String) : ClientState :=
  match mapGet st.peerConnections leftUserId with
  | none => st
  | some pc =>
    { st with
        peerConnections := mapDelete st.peerConnections leftUserId
        closedPcIds := st.closedPcIds ++ [pc.pcId] }

/-- `pc.getSenders().find(s => s.track?.kind === 'video')` followed by
`sender.replaceTrack(videoTrack)`: swap the track of the first sender whose
current track is a video track; all other senders untouched. -/
def replaceVideoTrack (newTrack : Track) : List Sender → List Sender
  | [] => []
  | sd :: rest =>
    if (sd.track.map Track.kind) = some "video" then
      ⟨some newTrack⟩ :: rest
    else sd :: replaceVideoTrack newTrack rest

/-- Replace the video sender's track on one peer connection in place. -/
def swapVideoSender (videoTrack : Track) (pc : PeerConn) : PeerConn :=
  { pc with senders := replaceVideoTrack videoTrack pc.senders }

/-- Replace the video sender's track only when a camera track exists
(`if (sender && videoTrack)` in `stopScreenShare`). -/
def swapVideoSenderOpt (videoTrack : Option Track) (pc : PeerConn) : PeerConn :=
  match videoTrack with
  | none => pc
  | some vt => swapVideoSender vt pc

/-- The success branch of `toggleScreenShare` (VideoCall.tsx lines
615-655): `videoTrack` is `screenStream.getVideoTracks()[0]`; each peer
connection's video sender gets `replaceTrack(videoTrack)`, the local
preview is switched to the screen stream, `isScreenSharing` is set.  No
`socket.emit` occurs. -/
def startScreenShare (st : ClientState) (screenStream : List Track)
    (videoTrack : Track) : ClientState × List OutMsg :=
  ({ st with
      peerConnections := st.peerConnections.map
        (fun e => (e.1, swapVideoSender videoTrack e.2))
      localPreview := screenStream
      isScreenSharing := true }, [])

/-- `stopScreenShare` (VideoCall.tsx lines 657-677): the camera video track
(`localStream.getVideoTracks()[0]`) replaces the screen track on each peer
connection's video sender (only when both the sender and the camera track
exist), the preview returns to the local stream, the flag is cleared.  No
`socket.emit` occurs. -/
def stopScreenShare (st : ClientState) : ClientState × List OutMsg :=
  let videoTrack := st.localTracks.find? (fun t => t.kind == "video")
  ({ st with
      peerConnections := st.peerConnections.map
        (fun e => (e.1, swapVideoSenderOpt videoTrack e.2))
      localPreview := st.localTracks
      isScreenSharing := false }, [])

/-! ## Connection-state recovery handlers (VideoCall.tsx lines 452-492)

`onconnectionstatechange` / `oniceconnectionstatechange` per peer
connection: an immediate `restartIce()` on `failed`; on `disconnected`, a
`setTimeout` (2000 ms for the connection-state handler, 3000 ms for the
ICE-state handler) that re-reads the state and restarts only if it is
still `disconnected` or `failed`.  `LinkSim` tracks the observed state,
scheduled recheck delays, and the number of `restartIce()` calls. -/

structure LinkSim where
  connState : PCState
  iceState : PCState
  restarts : Nat
  pendingConnRechecks : List Nat
  pendingIceRechecks : List Nat
deriving DecidableEq, Repr

/-- The `onconnectionstatechange` handler observing new state `s`. -/
def onConnStateChange (l : LinkSim) (s : PCState) : LinkSim :=
  let l := { l with connState := s }
  if s = .failed then { l with restarts := l.restarts + 1 }
  else if s = .disconnected then
    { l with pendingConnRechecks := l.pendingConnRechecks ++ [2000] }
  else l

/-- The `oniceconnectionstatechange` handler observing new state `s`. -/
def onIceStateChange (l : LinkSim) (s : PCState) : LinkSim :=
  let l := { l with iceState := s }
  if s = .failed then { l with restarts := l.restarts + 1 }
  else if s = .disconnected then
    { l with pendingIceRechecks := l.pendingIceRechecks ++ [3000] }
  else l

/-- A scheduled connection-state recheck fires: re-read
`peerConnection.connectionState`, restart only if still `disconnected` or
`failed`. -/
def fireConnRecheck (l : LinkSim) : LinkSim :=
  if l.connState = .disconnected ∨ l.connState = .failed then
    { l with restarts := l.restarts + 1
             pendingConnRechecks := l.pendingConnRechecks.tail }
  else { l with pendingConnRechecks := l.pendingConnRechecks.tail }

/-- A scheduled ICE-state recheck fires: re-read
`peerConnection.iceConnectionState`, restart only if still `disconnected`
or `failed`. -/
def fireIceRecheck (l : LinkSim) : LinkSim :=
  if l.iceState = .disconnected ∨ l.iceState = .failed then
    { l with restarts := l.restarts + 1
             pendingIceRechecks := l.pendingIceRechecks.tail }
  else { l with pendingIceRechecks := l.pendingIceRechecks.tail }

/-! ## Concrete states used by witnesses and counterexamples -/

/-- A room "r" holding target "t" (socket "sockT") and sender "u"
(socket "sockU"). -/
def c2Reg : Registry :=
  [("r", [("t", ⟨"sockT", "Tname", "t"⟩), ("u", ⟨"sockU", "Uname", "u"⟩)])]

/-- A room "r" holding only the target "t"; the sending socket has no
session there. -/
def c9Reg : Registry := [("r", [("t", ⟨"sockT", "Tname", "t"⟩)])]

/-- Socket "s1" joins room "A" as user "u", then joins room "B" as the same
user on the same socket. -/
def staleReg : Registry :=
  (joinRoom (joinRoom [] "s1" "A" "u" "n").registry "s1" "B" "u" "n").registry

/-- One socket "s" registered twice in room "r", under userIds "u1" and
"u2" — reachable by two join-room events from the same socket. -/
def dupSocketReg : Registry :=
  (joinRoom (joinRoom [] "s" "r" "u1" "a").registry "s" "r" "u2" "b").registry

/-- A well-formed registry: room "r" with two users on distinct sockets. -/
def okReg : Registry :=
  [("r", [("u1", ⟨"s", "a", "u1"⟩), ("u2", ⟨"t", "b", "u2"⟩)])]

/-- A client that has sent an offer to "peer" (local description set) and
still awaits the answer: remote description not yet set. -/
def iceLossStart : ClientState :=
  { peerConnections := [("peer",
      { pcId := 0
        localDescription := some "offer-sdp"
        remoteDescription := none
        senders := []
        connState := .fresh
        appliedCandidates := [] })]
    localTracks := []
    localPreview := []
    isScreenSharing := false
    closedPcIds := []
    nextPcId := 1 }

/-- An ICE candidate arrives before the answer. -/
def iceLossAfterCandidate : ClientState :=
  handleIncomingIceCandidate iceLossStart "peer" "cand0"

/-- The answer then sets the remote description. -/
def iceLossAfterAnswer : ClientState :=
  handleIncomingAnswer iceLossAfterCandidate "peer" "answer-sdp"

/-- A small client state with one established peer connection, used by
witnesses. -/
def smallClient : ClientState :=
  { peerConnections := [("p",
      { pcId := 0
        localDescription := some "o"
        remoteDescription := some "a"
        senders := [⟨some ⟨"video", 0⟩⟩, ⟨some ⟨"audio", 1⟩⟩]
        connState := .connected
        appliedCandidates := [] })]
    localTracks := [⟨"video", 0⟩, ⟨"audio", 1⟩]
    localPreview := [⟨"video", 0⟩, ⟨"audio", 1⟩]
    isScreenSharing := false
    closedPcIds := []
    nextPcId := 1 }

/-! ## Properties the idempotence argument needs -/

/-- No room of the registry has a session on socket `sid`. -/
def socketFree (sid : String) (reg : Registry) : Prop :=
  ∀ p ∈ reg, p.2.find? (fun e => e.2.socketId == sid) = none

/-- Each room's userId keys are distinct (true of every real JS `Map`) and
each room holds at most one session on socket `sid`. -/
def disconnectOk (sid : String) (reg : Registry) : Prop :=
  ∀ p ∈ reg, (p.2.map Prod.fst).Nodup ∧
    p.2.countP (fun e => e.2.socketId == sid) ≤ 1

/-! ## Association-list lemmas -/

theorem mapGet_mapSet_self {κ α : Type} [DecidableEq κ]
    (m : List (κ × α)) (k : κ) (v : α) :
    mapGet (mapSet m k v) k = some v := by
  induction m with
  | nil => simp [mapGet, mapSet]
  | cons e rest ih =>
    by_cases h : e.1 = k
    · obtain ⟨k1, v1⟩ := e
      simp only at h
      simp [mapGet, mapSet, h]
    · obtain ⟨k1, v1⟩ := e
      simp only at h
      simp [mapGet, mapSet, h, ih]

theorem mapGet_mapSet_ne {κ α : Type} [DecidableEq κ]
    (m : List (κ × α)) (k k' : κ) (v : α) (h : k' ≠ k) :
    mapGet (mapSet m k v) k' = mapGet m k' := by
  have hne : ¬ k = k' := fun hh => h hh.symm
  induction m with
  | nil => simp [mapGet, mapSet, hne]
  | cons e rest ih =>
    obtain ⟨k1, v1⟩ := e
    by_cases h1 : k1 = k
    · subst h1
      simp [mapGet, mapSet, hne]
    · simp [mapGet, mapSet, h1, ih]

theorem length_mapSet_of_get_some {κ α : Type} [DecidableEq κ]
    (m : List (κ × α)) (k : κ) (v w : α) (h : mapGet m k = some w) :
    (mapSet m k v).length = m.length := by
  induction m with
  | nil => cases h
  | cons e rest ih =>
    obtain ⟨k1, v1⟩ := e
    by_cases h1 : k1 = k
    · simp [mapSet, h1]
    · rw [mapGet, if_neg h1] at h
      simp [mapSet, h1, ih h]

theorem mapGet_mapValues {κ α β : Type} [DecidableEq κ]
    (m : List (κ × α)) (f : α → β) (k : κ) :
    mapGet (m.map (fun e => (e.1, f e.2))) k = (mapGet m k).map f := by
  induction m with
  | nil => rfl
  | cons e rest ih =>
    obtain ⟨k1, v1⟩ := e
    by_cases h : k1 = k
    · simp [mapGet, h]
    · simp [mapGet, h, ih]

/-! ## Disconnect idempotence lemmas -/

theorem disconnect_of_socketFree (reg : Registry) (sid : String)
    (h : socketFree sid reg) : disconnectSocket reg sid = (reg, []) := by
  induction reg with
  | nil => rfl
  | cons p rest ih =>
    obtain ⟨rid, room⟩ := p
    have hhead : room.find? (fun e => e.2.socketId == sid) = none :=
      h _ (List.mem_cons_self _ _)
    have htail : socketFree sid rest := fun q hq => h q (List.mem_cons_of_mem _ hq)
    simp [disconnectSocket, hhead, ih htail]

theorem find?_mapDelete_eq_none (room : Room) (sid uid : String)
    (info : SessionInfo)
    (hnodup : (room.map Prod.fst).Nodup)
    (hcount : room.countP (fun e => e.2.socketId == sid) ≤ 1)
    (hfind : room.find? (fun e => e.2.socketId == sid) = some (uid, info)) :
    (mapDelete room uid).find? (fun e => e.2.socketId == sid) = none := by
  induction room with
  | nil => cases hfind
  | cons e rest ih =>
    obtain ⟨k, v⟩ := e
    by_cases hp : ((fun e : String × SessionInfo => e.2.socketId == sid) (k, v)) = true
    · rw [List.find?_cons_of_pos (p := fun e => e.2.socketId == sid)
        (a := (k, v)) rest hp] at hfind
      have hk : k = uid := congrArg Prod.fst (Option.some.inj hfind)
      subst hk
      rw [List.countP_cons_of_pos (fun e => e.2.socketId == sid)
        (a := (k, v)) rest hp] at hcount
      have hzero : rest.countP (fun e => e.2.socketId == sid) = 0 := by omega
      have hnone : rest.find? (fun e => e.2.socketId == sid) = none := by
        rw [List.find?_eq_none]
        exact List.countP_eq_zero.mp hzero
      simpa [mapDelete] using hnone
    · rw [List.find?_cons_of_neg (p := fun e => e.2.socketId == sid)
        (a := (k, v)) rest hp] at hfind
      have hmem : (uid, info) ∈ rest := List.mem_of_find?_eq_some hfind
      have huid : uid ∈ rest.map Prod.fst := List.mem_map_of_mem Prod.fst hmem
      have hk : k ≠ uid := by
        intro hh
        subst hh
        exact ((List.nodup_cons.mp hnodup).1) huid
      have hcount' : rest.countP (fun e => e.2.socketId == sid) ≤ 1 := by
        rw [List.countP_cons_of_neg (fun e => e.2.socketId == sid)
          (a := (k, v)) rest hp] at hcount
        exact hcount
      have hrec := ih (List.nodup_cons.mp hnodup).2 hcount' hfind
      have hstep := List.find?_cons_of_neg (p := fun e => e.2.socketId == sid)
        (a := (k, v)) (mapDelete rest uid) hp
      simp [mapDelete, hk, hstep, hrec]

theorem socketFree_after_disconnect (reg : Registry) (sid : String)
    (h : disconnectOk sid reg) : socketFree sid (disconnectSocket reg sid).1 := by
  induction reg with
  | nil =>
    intro p hp
    cases hp
  | cons q rest ih =>
    obtain ⟨rid, room⟩ := q
    have hq := h _ (List.mem_cons_self _ _)
    have htail : disconnectOk sid rest := fun p hp => h p (List.mem_cons_of_mem _ hp)
    intro p hp
    cases hfind : room.find? (fun e => e.2.socketId == sid) with
    | none =>
      rw [disconnectSocket] at hp
      rw [hfind] at hp
      simp only at hp
      rcases List.mem_cons.mp hp with hpe | hpt
      · subst hpe
        exact hfind
      · exact ih htail p hpt
    | some ui =>
      obtain ⟨uid, info⟩ := ui
      have hdel := find?_mapDelete_eq_none room sid uid info hq.1 hq.2 hfind
      rw [disconnectSocket] at hp
      rw [hfind] at hp
      simp only at hp
      by_cases hemp : (mapDelete room uid).isEmpty
      · rw [if_pos hemp] at hp
        exact ih htail p hp
      · rw [if_neg hemp] at hp
        rcases List.mem_cons.mp hp with hpe | hpt
        · subst hpe
          exact hdel
        · exact ih htail p hpt

/-! ## Claim theorems -/

/-- Claim C1 (code bug evaluation): an ICE candidate that arrives for a
peer link before its remote description is set leaves the client state
completely unchanged — there is no buffer — so after the answer later sets
the remote description, the candidate has not been applied and is lost.
The spec requires buffering and flushing; the code drops the candidate. -/
theorem early_ice_candidate_dropped :
    iceLossAfterCandidate = iceLossStart ∧
    (mapGet iceLossAfterAnswer.peerConnections "peer").map
        PeerConn.appliedCandidates = some [] ∧
    (mapGet iceLossAfterAnswer.peerConnections "peer").map
        PeerConn.remoteDescription = some (some "answer-sdp") := by
  refine ⟨rfl, rfl, rfl⟩

/-- Claim C2: a routed offer/answer/ICE message is delivered to exactly the
transport currently mapped to its target participant in the room's
registry, or — when the room or target is absent — to no one at all; every
delivery targets that mapped socket (never another participant's), and a
drop emits nothing, so the sender is never notified. -/
theorem relay_route_exact (reg : Registry) (s t r : String) :
    (∀ d ∈ relayRoute reg s t r, ∃ room info,
        mapGet reg r = some room ∧ mapGet room t = some info ∧
        d.toSocket = info.socketId) ∧
    (mapGet reg r = none → relayRoute reg s t r = []) ∧
    (∀ room, mapGet reg r = some room → mapGet room t = none →
        relayRoute reg s t r = []) ∧
    (∀ room info, mapGet reg r = some room → mapGet room t = some info →
        relayRoute reg s t r = [⟨info.socketId, getUserIdBySocket reg s r⟩]) := by
  refine ⟨?_, ?_, ?_, ?_⟩
  · intro d hd
    rcases hroom : mapGet reg r with _ | room
    · simp only [relayRoute, hroom] at hd
      cases hd
    · rcases htgt : mapGet room t with _ | info
      · simp only [relayRoute, hroom, htgt] at hd
        cases hd
      · simp only [relayRoute, hroom, htgt] at hd
        rcases List.mem_singleton.mp hd with rfl
        exact ⟨room, info, rfl, htgt, rfl⟩
  · intro hnone
    simp only [relayRoute, hnone]
  · intro room hroom htgt
    simp only [relayRoute, hroom, htgt]
  · intro room info hroom htgt
    simp only [relayRoute, hroom, htgt]

/-- Witness for C2 at a concrete registry. -/
theorem relay_route_exact_witness :
    relayRoute c2Reg "sockU" "t" "r" = [⟨"sockT", some "u"⟩] := by
  have h := (relay_route_exact c2Reg "sockU" "t" "r").2.2.2
    [("t", ⟨"sockT", "Tname", "t"⟩), ("u", ⟨"sockU", "Uname", "u"⟩)]
    ⟨"sockT", "Tname", "t"⟩ rfl rfl
  rw [h]
  rfl

/-- Claim C3, counterexample: user "u" joins room "A" on socket "s1" and
then joins room "B" on the same socket; contrary to the claim, "u" still
appears in room "A"'s roster. -/
theorem rejoin_other_room_stale_entry :
    mapGet staleReg "A" = some [("u", ⟨"s1", "n", "u"⟩)] := by
  rfl

/-- Claim C3, amended: a join-room event modifies only the target room's
entry in the registry; every other room's roster — including a room the
same transport previously joined — is left exactly as it was (the stale
session persists there until the transport disconnects). -/
theorem join_frames_other_rooms (reg : Registry)
    (sid rid uid name r' : String) (h : r' ≠ rid) :
    mapGet (joinRoom reg sid rid uid name).registry r' = mapGet reg r' := by
  unfold joinRoom
  exact mapGet_mapSet_ne _ _ _ _ h

/-- Witness for the amended C3: joining room "B" leaves room "A"'s roster
untouched. -/
theorem join_frames_other_rooms_witness :
    mapGet (joinRoom (joinRoom [] "s1" "A" "u" "n").registry
      "s1" "B" "u" "n").registry "A"
      = mapGet (joinRoom [] "s1" "A" "u" "n").registry "A" :=
  join_frames_other_rooms (joinRoom [] "s1" "A" "u" "n").registry
    "s1" "B" "u" "n" "A" (by decide)

/-- Claim C4, counterexample: joining an empty room sends no
room-participants message at all (the code only emits it when
`existingParticipants.length > 0`), contrary to the claim that an empty
list is sent. -/
theorem join_empty_room_no_reply :
    (joinRoom [] "s0" "r0" "u0" "Alice").roomParticipantsReply = none := by
  rfl

/-- Claim C4, amended: the relay replies with room-participants to the
joining socket, and only to it, exactly when the room's pre-join roster
excluding the joining participant is nonempty; the list sent is exactly
that roster.  When that roster is empty, no room-participants message is
sent. -/
theorem join_reply_policy (reg : Registry) (sid rid uid name : String) :
    (((((mapGet reg rid).getD []).map Prod.snd).filter
        (fun p => p.userId != uid)) = [] →
      (joinRoom reg sid rid uid name).roomParticipantsReply = none) ∧
    (((((mapGet reg rid).getD []).map Prod.snd).filter
        (fun p => p.userId != uid)) ≠ [] →
      (joinRoom reg sid rid uid name).roomParticipantsReply =
        some (sid, ((((mapGet reg rid).getD []).map Prod.snd).filter
          (fun p => p.userId != uid)))) := by
  constructor
  · intro hemp
    unfold joinRoom
    simp [hemp]
  · intro hne
    unfold joinRoom
    simp only
    rw [if_pos]
    exact List.length_pos.mpr hne

/-- Witness for the amended C4: a second user joining a one-user room
receives exactly the existing roster. -/
theorem join_reply_policy_witness :
    (joinRoom [("r", [("u1", ⟨"s1", "a", "u1"⟩)])]
        "s2" "r" "u2" "b").roomParticipantsReply
      = some ("s2", [⟨"s1", "a", "u1"⟩]) := by
  have h := (join_reply_policy [("r", [("u1", ⟨"s1", "a", "u1"⟩)])]
    "s2" "r" "u2" "b").2 (by decide)
  rw [h]
  rfl

/-- Claim C5: joining with a participantId that already has a session in
the room replaces that session in place — the stored transport handle and
display name become the new ones — and the room's participant count does
not change. -/
theorem rejoin_replaces_session (reg : Registry) (sid rid uid name : String)
    (room0 : Room) (old : SessionInfo)
    (hroom : mapGet reg rid = some room0)
    (hold : mapGet room0 uid = some old) :
    mapGet (joinRoom reg sid rid uid name).registry rid =
      some (mapSet room0 uid ⟨sid, name, uid⟩) ∧
    mapGet (mapSet room0 uid ⟨sid, name, uid⟩) uid = some ⟨sid, name, uid⟩ ∧
    (mapSet room0 uid ⟨sid, name, uid⟩).length = room0.length := by
  refine ⟨?_, mapGet_mapSet_self _ _ _,
    length_mapSet_of_get_some _ _ _ _ hold⟩
  unfold joinRoom
  simp only [hroom, Option.getD_some]
  exact mapGet_mapSet_self _ _ _

/-- Witness for C5 at a concrete room. -/
theorem rejoin_replaces_session_witness :
    mapGet (joinRoom [("r", [("u", ⟨"s-old", "Old", "u"⟩)])]
        "s-new" "r" "u" "New").registry "r"
      = some [("u", ⟨"s-new", "New", "u"⟩)] := by
  have h := (rejoin_replaces_session [("r", [("u", ⟨"s-old", "Old", "u"⟩)])]
    "s-new" "r" "u" "New" [("u", ⟨"s-old", "Old", "u"⟩)]
    ⟨"s-old", "Old", "u"⟩ rfl rfl).1
  rw [h]
  rfl

/-- Claim C6, counterexample: a socket that joined the same room under two
userIds (two join-room events, both reachable) is only half-removed by the
first disconnect pass — the second disconnect removes the second session
and emits another user-left, so double-invocation is not a no-op. -/
theorem double_disconnect_not_noop :
    (disconnectSocket (disconnectSocket dupSocketReg "s").1 "s").2 ≠ [] ∧
    (disconnectSocket (disconnectSocket dupSocketReg "s").1 "s").1 ≠
      (disconnectSocket dupSocketReg "s").1 := by
  refine ⟨?_, ?_⟩ <;> decide

/-- Claim C6, amended: on any registry in which each room's userId keys
are distinct and each room holds at most one session on the disconnecting
transport, disconnect handling is idempotent — the second invocation
leaves the registry unchanged and sends no user-left notification. -/
theorem disconnect_idempotent_of_ok (reg : Registry) (sid : String)
    (h : disconnectOk sid reg) :
    disconnectSocket (disconnectSocket reg sid).1 sid =
      ((disconnectSocket reg sid).1, []) :=
  disconnect_of_socketFree _ _ (socketFree_after_disconnect reg sid h)

/-- Witness for the amended C6 at a concrete two-user room. -/
theorem disconnect_idempotent_of_ok_witness :
    disconnectSocket (disconnectSocket okReg "s").1 "s" =
      ((disconnectSocket okReg "s").1, []) :=
  disconnect_idempotent_of_ok okReg "s" (by unfold disconnectOk okReg; decide)

/-- Claim C7: a connection-state or ICE-state change to failed triggers an
immediate ICE restart on that same peer link with nothing scheduled, while
a change to disconnected triggers no immediate restart and only schedules
a recheck after a fixed grace period (2000 ms for the connection-state
handler, 3000 ms for the ICE-state handler); when the recheck fires it
restarts exactly when the link is then still disconnected or failed. -/
theorem recovery_restart_policy (l : LinkSim) :
    (onConnStateChange l .failed).restarts = l.restarts + 1 ∧
    (onConnStateChange l .failed).pendingConnRechecks =
      l.pendingConnRechecks ∧
    (onConnStateChange l .disconnected).restarts = l.restarts ∧
    (onConnStateChange l .disconnected).pendingConnRechecks =
      l.pendingConnRechecks ++ [2000] ∧
    (onIceStateChange l .failed).restarts = l.restarts + 1 ∧
    (onIceStateChange l .failed).pendingIceRechecks =
      l.pendingIceRechecks ∧
    (onIceStateChange l .disconnected).restarts = l.restarts ∧
    (onIceStateChange l .disconnected).pendingIceRechecks =
      l.pendingIceRechecks ++ [3000] ∧
    (fireConnRecheck l).restarts =
      (if l.connState = .disconnected ∨ l.connState = .failed
        then l.restarts + 1 else l.restarts) ∧
    (fireIceRecheck l).restarts =
      (if l.iceState = .disconnected ∨ l.iceState = .failed
        then l.restarts + 1 else l.restarts) := by
  refine ⟨rfl, rfl, rfl, rfl, rfl, rfl, rfl, rfl, ?_, ?_⟩
  · unfold fireConnRecheck
    split <;> rfl
  · unfold fireIceRecheck
    split <;> rfl

/-- Claim C8: starting or stopping screen share swaps only sender tracks
and the local preview: no offer or answer is emitted, the set of peer keys
is unchanged, and every peer connection keeps its identity, its local and
remote descriptions, and its connection state; the preview becomes the
captured stream on start and returns to the local stream on stop. -/
theorem screen_share_swap_frame (st : ClientState)
    (screenStream : List Track) (videoTrack : Track) (uid : String) :
    (startScreenShare st screenStream videoTrack).2 = [] ∧
    (stopScreenShare st).2 = [] ∧
    (startScreenShare st screenStream videoTrack).1.peerConnections.map
        Prod.fst = st.peerConnections.map Prod.fst ∧
    (stopScreenShare st).1.peerConnections.map Prod.fst =
      st.peerConnections.map Prod.fst ∧
    (mapGet (startScreenShare st screenStream videoTrack).1.peerConnections
        uid).map (fun pc =>
          (pc.pcId, pc.localDescription, pc.remoteDescription, pc.connState))
      = (mapGet st.peerConnections uid).map (fun pc =>
          (pc.pcId, pc.localDescription, pc.remoteDescription, pc.connState)) ∧
    (mapGet (stopScreenShare st).1.peerConnections uid).map (fun pc =>
          (pc.pcId, pc.localDescription, pc.remoteDescription, pc.connState))
      = (mapGet st.peerConnections uid).map (fun pc =>
          (pc.pcId, pc.localDescription, pc.remoteDescription, pc.connState)) ∧
    (startScreenShare st screenStream videoTrack).1.closedPcIds =
      st.closedPcIds ∧
    (stopScreenShare st).1.closedPcIds = st.closedPcIds ∧
    (startScreenShare st screenStream videoTrack).1.localPreview =
      screenStream ∧
    (stopScreenShare st).1.localPreview = st.localTracks := by
  refine ⟨rfl, rfl, by simp [startScreenShare], by simp [stopScreenShare],
    ?_, ?_, rfl, rfl, rfl, rfl⟩
  · show (mapGet (st.peerConnections.map
        (fun e => (e.1, swapVideoSender videoTrack e.2))) uid).map _ = _
    rw [mapGet_mapValues]
    cases mapGet st.peerConnections uid <;> rfl
  · show (mapGet (st.peerConnections.map
        (fun e => (e.1, swapVideoSenderOpt
          (st.localTracks.find? (fun t => t.kind == "video")) e.2))) uid).map _ = _
    rw [mapGet_mapValues]
    cases mapGet st.peerConnections uid with
    | none => rfl
    | some pc =>
      cases st.localTracks.find? (fun t => t.kind == "video") <;>
        simp [swapVideoSenderOpt, swapVideoSender]

/-- Claim C9: when the target participant is present in the room but the
sending socket owns no session there (so `getUserIdBySocket` returns
null), the relay still forwards the message to the target's transport,
annotating the payload with a null sender participant id instead of
dropping it. -/
theorem relay_forwards_null_sender (reg : Registry) (s t r : String)
    (room : Room) (info : SessionInfo)
    (hroom : mapGet reg r = some room)
    (htgt : mapGet room t = some info)
    (hsender : room.find? (fun e => e.2.socketId == s) = none) :
    relayRoute reg s t r = [⟨info.socketId, none⟩] := by
  simp only [relayRoute, getUserIdBySocket, hroom, htgt, hsender]
  rfl

/-- Witness for C9: a socket with no session in the room still gets its
offer forwarded, with a null sender annotation. -/
theorem relay_forwards_null_sender_witness :
    relayRoute c9Reg "ghost-socket" "t" "r" = [⟨"sockT", none⟩] :=
  relay_forwards_null_sender c9Reg "ghost-socket" "t" "r"
    [("t", ⟨"sockT", "Tname", "t"⟩)] ⟨"sockT", "Tname", "t"⟩ rfl rfl rfl

/-- Claim C10: creating a peer connection for a remote participant stores
the freshly allocated connection in the map by unconditionally overwriting
any existing entry for that id (both on the offering path and when
handling an incoming offer), leaves every other entry untouched, and
closes nothing — the close ledger is unchanged, so a previously stored
connection is never closed first. -/
theorem create_pc_overwrites_without_close (st : ClientState)
    (uid u' offerSdp answerSdp : String) :
    (createPeerConnection st uid).2.pcId = st.nextPcId ∧
    mapGet (createPeerConnection st uid).1.peerConnections uid =
      some (createPeerConnection st uid).2 ∧
    (createPeerConnection st uid).1.closedPcIds = st.closedPcIds ∧
    (u' ≠ uid → mapGet (createPeerConnection st uid).1.peerConnections u' =
      mapGet st.peerConnections u') ∧
    (mapGet (handleIncomingOffer st uid offerSdp answerSdp).1.peerConnections
        uid).map PeerConn.pcId = some st.nextPcId ∧
    (handleIncomingOffer st uid offerSdp answerSdp).1.closedPcIds =
      st.closedPcIds := by
  refine ⟨rfl, ?_, rfl, ?_, ?_, rfl⟩
  · exact mapGet_mapSet_self _ _ _
  · intro hne
    exact mapGet_mapSet_ne _ _ _ _ hne
  · show (mapGet (mapSet (mapSet st.peerConnections uid _) uid _) uid).map
      PeerConn.pcId = some st.nextPcId
    rw [mapGet_mapSet_self]
    rfl

/-- Witness for C10: overwriting an existing entry at a concrete state. -/
theorem create_pc_overwrites_without_close_witness :
    mapGet (createPeerConnection smallClient "p").1.peerConnections "q" =
      mapGet smallClient.peerConnections "q" :=
  (create_pc_overwrites_without_close smallClient "p" "q" "o2" "a2").2.2.2.1
    (by decide)

end VideoMeet
